import Mathlib

/-!
Shallow embedding of the validation-decorator example of
`src/src/decorators.ts` (lines 435-577): a process-wide registry mapping a
class name to per-field rule-tag lists, two property decorators (`Required`
and `PositiveNumber`) that append the tags "required" and "positive", and a
`validate` function that folds a boolean AND of the rule checks over every
registered field of the candidate's type.

JavaScript objects are modelled as association lists over `String` keys,
preserving insertion order (JS string-keyed own properties enumerate in
insertion order).  JavaScript values occurring in the example are modelled
by `JSValue`; its numbers are `Int` (the example only uses integral
numbers, and floating point is out of reach of the embedding), with NaN
represented as the `none` result of the coercion `toNumber`.
-/

namespace Decorators

/-- A JavaScript value as used by the example: a number, a string, a
boolean, `null` or `undefined`. -/
inductive JSValue where
  | num (n : Int)
  | str (s : String)
  | bool (b : Bool)
  | nullv
  | undef
deriving DecidableEq

/-- First-match lookup in an association list, as JS property read
`m[k]` returning `undefined` (here `none`) when the key is absent. -/
def lookup? {α : Type} : List (String × α) → String → Option α
  | [], _ => none
  | (k₁, v) :: rest, k => if k₁ = k then some v else lookup? rest k

/-- JS property write `m[k] = v` (and equally the object-literal override
`\x7b ...m, [k]: v \x7d`): replace the value at the first occurrence of
`k` keeping its position, or append the new entry at the end when `k` is
absent. -/
def setKey {α : Type} : List (String × α) → String → α → List (String × α)
  | [], k, v => [(k, v)]
  | (k₁, v₁) :: rest, k, v =>
      if k₁ = k then (k, v) :: rest else (k₁, v₁) :: setKey rest k v

/-- The per-type part of `ValidatorConfig`: field name to ordered rule-tag
list (`[validatableProp: string]: string[]`). -/
abbrev FieldRules : Type := List (String × List String)

/-- The registry type `ValidatorConfig`: class name to `FieldRules`. -/
abbrev Registry : Type := List (String × FieldRules)

/-- The initial value of `registeredValidators`: the empty object. -/
def registeredValidators : Registry := []

/-- A candidate object presented to `validate`: `obj.constructor.name`
(the class name the decorators registered under) plus its own fields. -/
structure Candidate where
  ctorName : String
  fields : List (String × JSValue)
deriving DecidableEq

/-- JS property read `obj[prop]` on the candidate: `undefined` when the
field is absent. -/
def getProp (obj : Candidate) (p : String) : JSValue :=
  (lookup? obj.fields p).getD JSValue.undef

/-- JS truthiness `!!v` as used in the "required" branch of `validate`:
false for `0`, the empty string, `false`, `null` and `undefined`. -/
def truthy : JSValue → Bool
  | JSValue.num n => decide (n ≠ 0)
  | JSValue.str s => decide (s ≠ "")
  | JSValue.bool b => b
  | JSValue.nullv => false
  | JSValue.undef => false

/-- Decimal digit run to a natural number. -/
def digitsVal (cs : List Char) : Nat :=
  cs.foldl (fun a c => a * 10 + (c.toNat - 48)) 0

/-- JS `ToNumber` on the decimal-integer fragment of strings exercised by
the example: the empty string coerces to `0`, a run of decimal digits
(optionally signed) to its value, and any other string (such as "x" or
"TS") to NaN, modelled as `none`. -/
def strToNumber (s : String) : Option Int :=
  match s.data with
  | [] => some 0
  | c :: rest =>
      if c = '-' then
        if !rest.isEmpty && rest.all Char.isDigit then
          some (-(digitsVal rest : Int))
        else none
      else if (c :: rest).all Char.isDigit then
        some ((digitsVal (c :: rest) : Int))
      else none

/-- JS `ToNumber` coercion of a value, with NaN as `none`: numbers are
themselves, strings parse as above, `true`/`false` are `1`/`0`, `null` is
`0` and `undefined` is NaN. -/
def toNumber : JSValue → Option Int
  | JSValue.num n => some n
  | JSValue.str s => strToNumber s
  | JSValue.bool b => some (if b then 1 else 0)
  | JSValue.nullv => some 0
  | JSValue.undef => none

/-- The "positive" branch check `obj[prop] > 0` with JS abstract relational
comparison against the number `0`: both operands are coerced with
`ToNumber`, and a NaN comparison is false. -/
def jsGreaterThanZero (v : JSValue) : Bool :=
  match toNumber v with
  | some n => decide (0 < n)
  | none => false

/-- The common body of the two property decorators: append `rule` to the
ordered list at `registeredValidators[typeName][propName]`, creating the
type and field entries when absent (`?.` / `?? []` give the empty list,
and the spread of `undefined` gives the empty object). -/
def register (reg : Registry) (typeName propName rule : String) : Registry :=
  let oldFields : FieldRules := (lookup? reg typeName).getD []
  let oldRules : List String := (lookup? oldFields propName).getD []
  setKey reg typeName (setKey oldFields propName (oldRules ++ [rule]))

/-- The property decorator `Required(target, propName)`: registers the tag
"required" under the target's constructor name. -/
def Required (reg : Registry) (ctorName propName : String) : Registry :=
  register reg ctorName propName "required"

/-- The property decorator `PositiveNumber(target, propName)`: registers
the tag "positive" under the target's constructor name. -/
def PositiveNumber (reg : Registry) (ctorName propName : String) : Registry :=
  register reg ctorName propName "positive"

/-- One iteration of the inner loop of `validate`: the `switch` on the
rule tag.  "required" ANDs in `!!obj[prop]`, "positive" ANDs in
`obj[prop] > 0`, and any other tag falls through leaving `isValid`
unchanged (the switch has no default case). -/
def applyRule (isValid : Bool) (v : JSValue) (rule : String) : Bool :=
  if rule = "required" then isValid && truthy v
  else if rule = "positive" then isValid && jsGreaterThanZero v
  else isValid

/-- `validate(obj)`: look up the candidate's constructor name in the
registry; when absent return `true`; otherwise fold the rule checks over
every registered field and every rule in its list, starting from the flag
`isValid = true`. -/
def validate (reg : Registry) (obj : Candidate) : Bool :=
  match lookup? reg obj.ctorName with
  | none => true
  | some objValidatorConfig =>
      objValidatorConfig.foldl
        (fun isValid pr =>
          pr.2.foldl (fun iv rule => applyRule iv (getProp obj pr.1) rule) isValid)
        true

/-- The class `Course` declares `@Required title` then
`@PositiveNumber price`; property decorators run top to bottom at class
definition time, so the registry after the declaration is this. -/
def courseRegistry : Registry :=
  PositiveNumber (Required registeredValidators "Course" "title") "Course" "price"

/-- A `Course` instance `new Course(t, p)` viewed as a candidate. -/
def mkCourse (t : String) (p : Int) : Candidate :=
  ⟨"Course", [("title", JSValue.str t), ("price", JSValue.num p)]⟩

/-- The outcome of one rule check in isolation: what `applyRule` ANDs into
the running flag ("required" checks truthiness, "positive" the coerced
comparison with zero, any other tag checks nothing). -/
def ruleCheck (v : JSValue) (rule : String) : Bool :=
  if rule = "required" then truthy v
  else if rule = "positive" then jsGreaterThanZero v
  else true

/-- The AND of every rule check over every registered field of a config,
against the candidate's field values. -/
def allChecks (cfg : FieldRules) (obj : Candidate) : Bool :=
  cfg.all (fun pr => pr.2.all (fun r => ruleCheck (getProp obj pr.1) r))

/-- A registry built by a sequence of registration events, each a triple
of type name, field name and rule tag, applied left to right to the empty
initial registry. -/
def buildReg (ts : List (String × String × String)) : Registry :=
  ts.foldl (fun reg t => register reg t.1 t.2.1 t.2.2) registeredValidators

/-- The contribution of one registration event to validating `obj`: its
rule check when the event's type is the candidate's type, vacuous
otherwise. -/
def checkTriple (obj : Candidate) (t : String × String × String) : Bool :=
  if t.1 = obj.ctorName then ruleCheck (getProp obj t.2.1) t.2.2 else true

/-- The rule list registered for field `f` of type `T`, empty when either
entry is absent. -/
def lookupRules (reg : Registry) (T f : String) : List String :=
  (lookup? ((lookup? reg T).getD []) f).getD []

/-- State-passing transliteration of `validate`: the registry and the
candidate are threaded through every loop iteration, and each iteration
reads the candidate's field from the threaded state.  Used to state that
validation writes neither. -/
def validateS (reg : Registry) (obj : Candidate) : Bool × Registry × Candidate :=
  match lookup? reg obj.ctorName with
  | none => (true, reg, obj)
  | some objValidatorConfig =>
      objValidatorConfig.foldl
        (fun (st : Bool × Registry × Candidate) pr =>
          pr.2.foldl
            (fun (st2 : Bool × Registry × Candidate) rule =>
              (applyRule st2.1 (getProp st2.2.2 pr.1) rule, st2.2))
            st)
        (true, reg, obj)

/-- Exception-aware transliteration of `validate`: every step is wrapped
in `Except`, propagating an error were any step to raise one.  Used to
state that no branch of the evaluation raises. -/
def validateE (reg : Registry) (obj : Candidate) : Except String Bool :=
  match lookup? reg obj.ctorName with
  | none => Except.ok true
  | some objValidatorConfig =>
      objValidatorConfig.foldl
        (fun acc pr =>
          match acc with
          | Except.error e => Except.error e
          | Except.ok b =>
              pr.2.foldl
                (fun acc2 rule =>
                  match acc2 with
                  | Except.error e => Except.error e
                  | Except.ok b2 => Except.ok (applyRule b2 (getProp obj pr.1) rule))
                (Except.ok b))
        (Except.ok true)

theorem applyRule_eq_and (b : Bool) (v : JSValue) (r : String) :
    applyRule b v r = (b && ruleCheck v r) := by
  unfold applyRule ruleCheck
  split
  · rfl
  · split
    · rfl
    · simp

theorem foldl_applyRule (rules : List String) (v : JSValue) (b : Bool) :
    rules.foldl (fun iv rule => applyRule iv v rule) b
      = (b && rules.all (fun r => ruleCheck v r)) := by
  induction rules generalizing b with
  | nil => simp
  | cons r rest ih =>
      rw [List.foldl_cons, ih, applyRule_eq_and, List.all_cons, Bool.and_assoc]

theorem foldl_fields (cfg : FieldRules) (obj : Candidate) (b : Bool) :
    cfg.foldl
        (fun isValid pr =>
          pr.2.foldl (fun iv rule => applyRule iv (getProp obj pr.1) rule) isValid)
        b
      = (b && allChecks cfg obj) := by
  induction cfg generalizing b with
  | nil => simp [allChecks]
  | cons pr rest ih =>
      rw [List.foldl_cons, ih, foldl_applyRule]
      simp [allChecks, List.all_cons, Bool.and_assoc]

/-- `validate` computes the AND of every rule check when the type has an
entry, and is vacuously true otherwise. -/
theorem validate_eq (reg : Registry) (obj : Candidate) :
    validate reg obj
      = (match lookup? reg obj.ctorName with
         | none => true
         | some cfg => allChecks cfg obj) := by
  unfold validate
  cases lookup? reg obj.ctorName with
  | none => rfl
  | some cfg => simpa using foldl_fields cfg obj true

theorem lookup_setKey_self {α : Type} (m : List (String × α)) (k : String) (v : α) :
    lookup? (setKey m k v) k = some v := by
  induction m with
  | nil => simp [setKey, lookup?]
  | cons h t ih =>
      by_cases hk : h.1 = k
      · simp [setKey, hk, lookup?]
      · simp [setKey, hk, lookup?, ih]

theorem lookup_setKey_ne {α : Type} (m : List (String × α)) (k k₂ : String) (v : α)
    (hne : k₂ ≠ k) : lookup? (setKey m k v) k₂ = lookup? m k₂ := by
  induction m with
  | nil => simp [setKey, lookup?, Ne.symm hne]
  | cons h t ih =>
      by_cases hk : h.1 = k
      · subst hk
        simp [setKey, lookup?, Ne.symm hne]
      · simp only [setKey, hk, if_false, lookup?]
        split
        · rfl
        · exact ih

theorem setKey_of_lookup_none {α : Type} (m : List (String × α)) (k : String) (v : α)
    (h : lookup? m k = none) : setKey m k v = m ++ [(k, v)] := by
  induction m with
  | nil => simp [setKey]
  | cons hd t ih =>
      simp only [lookup?] at h
      by_cases hk : hd.1 = k
      · simp [hk] at h
      · simp only [setKey, hk, if_false, List.cons_append, List.cons.injEq, true_and]
        exact ih (by simpa [hk] using h)

theorem all_setKey_some {α : Type} (P : String × α → Bool) (m : List (String × α))
    (k : String) (v w : α) (X : Bool) (hl : lookup? m k = some w)
    (hP : P (k, v) = (P (k, w) && X)) :
    (setKey m k v).all P = (m.all P && X) := by
  induction m with
  | nil => simp [lookup?] at hl
  | cons hd t ih =>
      simp only [lookup?] at hl
      by_cases hk : hd.1 = k
      · rw [if_pos hk] at hl
        have hw : hd.2 = w := by simpa using hl
        have hd_eq : hd = (k, hd.2) := by
          cases hd
          simp_all
        simp only [setKey, hk, if_true, List.all_cons]
        rw [hd_eq, hw, hP]
        rw [Bool.and_assoc, Bool.and_comm X, ← Bool.and_assoc]
      · rw [if_neg hk] at hl
        simp only [setKey, hk, if_false, List.all_cons, ih hl, Bool.and_assoc]

/-- Registering one rule ANDs exactly its own check (for the registered
type) into the validation outcome. -/
theorem validate_register (reg : Registry) (T f r : String) (obj : Candidate) :
    validate (register reg T f r) obj
      = (validate reg obj
          && (if T = obj.ctorName then ruleCheck (getProp obj f) r else true)) := by
  rw [validate_eq, validate_eq]
  by_cases hT : T = obj.ctorName
  · subst hT
    simp only [register]
    rw [lookup_setKey_self]
    cases hreg : lookup? reg obj.ctorName with
    | none =>
        simp [hreg, lookup?, setKey, allChecks]
    | some cfg =>
        simp only [hreg, Option.getD_some]
        cases hf : lookup? cfg f with
        | none =>
            simp only [hf, Option.getD_none, List.nil_append]
            rw [setKey_of_lookup_none cfg f _ hf]
            simp [allChecks, List.all_append]
        | some w =>
            simp only [hf, Option.getD_some]
            have := all_setKey_some
              (fun pr => pr.2.all (fun s => ruleCheck (getProp obj pr.1) s))
              cfg f (w ++ [r]) w (ruleCheck (getProp obj f) r) hf
              (by simp [List.all_append])
            simpa [allChecks] using this
  · simp only [register]
    rw [lookup_setKey_ne _ _ _ _ (Ne.symm hT)]
    cases lookup? reg obj.ctorName <;> simp [hT]

theorem validate_empty (obj : Candidate) : validate registeredValidators obj = true := rfl

theorem validate_foldl_register (ts : List (String × String × String))
    (reg : Registry) (obj : Candidate) :
    validate (ts.foldl (fun a t => register a t.1 t.2.1 t.2.2) reg) obj
      = (validate reg obj && ts.all (checkTriple obj)) := by
  induction ts generalizing reg with
  | nil => simp
  | cons t rest ih =>
      rw [List.foldl_cons, ih, validate_register, List.all_cons, Bool.and_assoc]
      rfl

/-- A registry built from a sequence of registration events validates a
candidate exactly when every event's contribution checks out: the result
is the AND over the (multiset of) events, independent of grouping. -/
theorem validate_buildReg (ts : List (String × String × String)) (obj : Candidate) :
    validate (buildReg ts) obj = ts.all (checkTriple obj) := by
  have h := validate_foldl_register ts registeredValidators obj
  simpa [buildReg, validate_empty] using h

theorem perm_all_eq {α : Type} {l l₂ : List α} (h : l.Perm l₂) (p : α → Bool) :
    l.all p = l₂.all p := by
  induction h with
  | nil => rfl
  | cons x _ ih => simp [List.all_cons, ih]
  | swap x y l =>
      simp only [List.all_cons, ← Bool.and_assoc]
      rw [Bool.and_comm (p y) (p x)]
  | trans _ _ ih1 ih2 => rw [ih1, ih2]

theorem foldS_inner (rules : List String) (p : String)
    (st : Bool × Registry × Candidate) :
    rules.foldl
        (fun (st2 : Bool × Registry × Candidate) rule =>
          (applyRule st2.1 (getProp st2.2.2 p) rule, st2.2))
        st
      = (rules.foldl (fun iv rule => applyRule iv (getProp st.2.2 p) rule) st.1, st.2) := by
  induction rules generalizing st with
  | nil => rfl
  | cons r rest ih => rw [List.foldl_cons, List.foldl_cons, ih]

theorem foldS_outer (cfg : FieldRules) (st : Bool × Registry × Candidate) :
    cfg.foldl
        (fun (st1 : Bool × Registry × Candidate) pr =>
          pr.2.foldl
            (fun (st2 : Bool × Registry × Candidate) rule =>
              (applyRule st2.1 (getProp st2.2.2 pr.1) rule, st2.2))
            st1)
        st
      = (cfg.foldl
          (fun iv pr =>
            pr.2.foldl (fun iv2 rule => applyRule iv2 (getProp st.2.2 pr.1) rule) iv)
          st.1, st.2) := by
  induction cfg generalizing st with
  | nil => rfl
  | cons pr rest ih =>
      rw [List.foldl_cons, List.foldl_cons, foldS_inner, ih]

/-- The state-passing transliteration returns the registry and the
candidate exactly as given, with the same boolean as `validate`. -/
theorem validateS_eq (reg : Registry) (obj : Candidate) :
    validateS reg obj = (validate reg obj, reg, obj) := by
  unfold validateS validate
  cases lookup? reg obj.ctorName with
  | none => rfl
  | some cfg => exact foldS_outer cfg (true, reg, obj)

theorem foldE_inner (rules : List String) (v : JSValue) (b : Bool) :
    rules.foldl
        (fun acc2 rule =>
          match acc2 with
          | Except.error e => Except.error e
          | Except.ok b2 => Except.ok (applyRule b2 v rule))
        (Except.ok b : Except String Bool)
      = Except.ok (rules.foldl (fun iv rule => applyRule iv v rule) b) := by
  induction rules generalizing b with
  | nil => rfl
  | cons r rest ih =>
      rw [List.foldl_cons, List.foldl_cons]
      exact ih _

theorem foldE_outer (cfg : FieldRules) (obj : Candidate) (b : Bool) :
    cfg.foldl
        (fun acc pr =>
          match acc with
          | Except.error e => Except.error e
          | Except.ok bb =>
              pr.2.foldl
                (fun acc2 rule =>
                  match acc2 with
                  | Except.error e => Except.error e
                  | Except.ok b2 => Except.ok (applyRule b2 (getProp obj pr.1) rule))
                (Except.ok bb))
        (Except.ok b : Except String Bool)
      = Except.ok
          (cfg.foldl
            (fun iv pr =>
              pr.2.foldl (fun iv2 rule => applyRule iv2 (getProp obj pr.1) rule) iv)
            b) := by
  induction cfg generalizing b with
  | nil => rfl
  | cons pr rest ih =>
      simp only [List.foldl_cons]
      rw [foldE_inner]
      exact ih _

/-- The exception-aware transliteration always succeeds, with the same
boolean as `validate`. -/
theorem validateE_eq (reg : Registry) (obj : Candidate) :
    validateE reg obj = Except.ok (validate reg obj) := by
  unfold validateE validate
  cases lookup? reg obj.ctorName with
  | none => rfl
  | some cfg => exact foldE_outer cfg obj true

theorem lookupRules_register_self (reg : Registry) (T f r : String) :
    lookupRules (register reg T f r) T f = lookupRules reg T f ++ [r] := by
  unfold lookupRules
  simp only [register]
  rw [lookup_setKey_self, Option.getD_some, lookup_setKey_self, Option.getD_some]

theorem lookupRules_register_frame (reg : Registry) (T f r T₂ f₂ : String)
    (h : T₂ ≠ T ∨ f₂ ≠ f) :
    lookupRules (register reg T f r) T₂ f₂ = lookupRules reg T₂ f₂ := by
  unfold lookupRules
  simp only [register]
  by_cases hT : T₂ = T
  · subst hT
    have hf : f₂ ≠ f := h.resolve_left (fun hc => hc rfl)
    rw [lookup_setKey_self, Option.getD_some, lookup_setKey_ne _ _ _ _ hf]
  · rw [lookup_setKey_ne _ _ _ _ hT]

theorem validate_single_rule (T f rule : String) (v : JSValue) :
    validate (register registeredValidators T f rule) ⟨T, [(f, v)]⟩
      = ruleCheck v rule := by
  rw [validate_register]
  have hg : getProp ⟨T, [(f, v)]⟩ f = v := by
    simp [getProp, lookup?]
  rw [validate_empty, hg]
  simp

/-- C1, as the code refutes it: with `PositiveNumber` registered on field
`f`, the candidate whose `f` is the string "5" validates to `true`, not
`false` — JS coerces the string with `ToNumber` before the comparison
`obj[prop] > 0`, and `"5" > 0` is true. -/
theorem spec_C1_counterexample :
    validate (PositiveNumber registeredValidators "T" "f")
        ⟨"T", [("f", JSValue.str "5")]⟩ = true := by
  decide

/-- C1 (amended): with `PositiveNumber` registered on field `f`, the rule
evaluates to true iff the candidate's value at `f` coerces (JS `ToNumber`)
to a number strictly greater than zero, NaN comparing false; in
particular a candidate with f: 5 gives `true`, f: 0 gives `false`, f: -3
gives `false`, and the string f: "5" gives `true` since it coerces to 5. -/
theorem spec_C1 :
    (∀ (T f : String) (v : JSValue),
        validate (PositiveNumber registeredValidators T f) ⟨T, [(f, v)]⟩ = true
          ↔ ∃ n, toNumber v = some n ∧ 0 < n)
    ∧ validate (PositiveNumber registeredValidators "T" "f")
        ⟨"T", [("f", JSValue.num 5)]⟩ = true
    ∧ validate (PositiveNumber registeredValidators "T" "f")
        ⟨"T", [("f", JSValue.num 0)]⟩ = false
    ∧ validate (PositiveNumber registeredValidators "T" "f")
        ⟨"T", [("f", JSValue.num (-3))]⟩ = false
    ∧ validate (PositiveNumber registeredValidators "T" "f")
        ⟨"T", [("f", JSValue.str "5")]⟩ = true := by
  refine ⟨?_, by decide, by decide, by decide, by decide⟩
  intro T f v
  rw [PositiveNumber, validate_single_rule]
  have hrc : ruleCheck v "positive" = jsGreaterThanZero v := by
    simp [ruleCheck]
  rw [hrc, jsGreaterThanZero]
  cases htn : toNumber v with
  | none => simp [htn]
  | some n => simp [htn]

theorem spec_C1_witness :
    validate (PositiveNumber registeredValidators "A" "g")
        ⟨"A", [("g", JSValue.num 2)]⟩ = true :=
  (spec_C1.1 "A" "g" (JSValue.num 2)).mpr ⟨2, rfl, by decide⟩

/-- C2: a type name with no registry entry validates every candidate to
`true`. -/
theorem spec_C2 (reg : Registry) (obj : Candidate)
    (h : lookup? reg obj.ctorName = none) : validate reg obj = true := by
  rw [validate_eq, h]

theorem spec_C2_witness :
    validate [("A", [("x", ["required"])])] ⟨"B", [("x", JSValue.undef)]⟩ = true :=
  spec_C2 [("A", [("x", ["required"])])] ⟨"B", [("x", JSValue.undef)]⟩ (by decide)

/-- C4: with `Required` registered on field `f`, the rule evaluates to
true iff the candidate's value at `f` is truthy; in particular the empty
string gives `false` and the string "x" gives `true`. -/
theorem spec_C4 :
    (∀ (T f : String) (v : JSValue),
        validate (Required registeredValidators T f) ⟨T, [(f, v)]⟩ = truthy v)
    ∧ validate (Required registeredValidators "T" "f")
        ⟨"T", [("f", JSValue.str "")]⟩ = false
    ∧ validate (Required registeredValidators "T" "f")
        ⟨"T", [("f", JSValue.str "x")]⟩ = true := by
  refine ⟨?_, by decide, by decide⟩
  intro T f v
  rw [Required, validate_single_rule]
  simp [ruleCheck]

theorem spec_C4_witness :
    validate (Required registeredValidators "A" "g")
        ⟨"A", [("g", JSValue.num 3)]⟩ = truthy (JSValue.num 3) :=
  spec_C4.1 "A" "g" (JSValue.num 3)

/-- C5: the `Course` registration (title: Required, price: PositiveNumber)
validates a course with title "TS" and price 10 to `true`, an empty title
to `false`, and price -1 to `false`. -/
theorem spec_C5 :
    validate courseRegistry (mkCourse "TS" 10) = true
    ∧ validate courseRegistry (mkCourse "" 10) = false
    ∧ validate courseRegistry (mkCourse "TS" (-1)) = false := by
  refine ⟨by decide, by decide, by decide⟩

/-- C3: validation is the AND of every rule check over every field with
rules; it is invariant under permuting and under duplicating the
registration events that build the rule lists; and registering both
`Required` and `PositiveNumber` on one field makes a candidate with f: 0
validate to `false`. -/
theorem spec_C3 :
    (∀ (reg : Registry) (obj : Candidate),
        validate reg obj
          = (match lookup? reg obj.ctorName with
             | none => true
             | some cfg => allChecks cfg obj))
    ∧ (∀ (ts ts₂ : List (String × String × String)), ts.Perm ts₂ →
        ∀ obj : Candidate, validate (buildReg ts) obj = validate (buildReg ts₂) obj)
    ∧ (∀ (t : String × String × String) (ts : List (String × String × String))
        (obj : Candidate),
        validate (buildReg (t :: ts)) obj = validate (buildReg (t :: t :: ts)) obj)
    ∧ validate (PositiveNumber (Required registeredValidators "T" "f") "T" "f")
        ⟨"T", [("f", JSValue.num 0)]⟩ = false := by
  refine ⟨validate_eq, ?_, ?_, by decide⟩
  · intro ts ts₂ hperm obj
    rw [validate_buildReg, validate_buildReg]
    exact perm_all_eq hperm _
  · intro t ts obj
    rw [validate_buildReg, validate_buildReg]
    simp only [List.all_cons, ← Bool.and_assoc, Bool.and_self]

theorem spec_C3_witness :
    validate (buildReg [("T", "f", "required"), ("T", "f", "positive")])
        ⟨"T", [("f", JSValue.num 7)]⟩
      = validate (buildReg [("T", "f", "positive"), ("T", "f", "required")])
        ⟨"T", [("f", JSValue.num 7)]⟩ :=
  spec_C3.2.1 [("T", "f", "required"), ("T", "f", "positive")]
    [("T", "f", "positive"), ("T", "f", "required")]
    (List.Perm.swap ("T", "f", "positive") ("T", "f", "required") [])
    ⟨"T", [("f", JSValue.num 7)]⟩

/-- C6: each registration (Required appends "required", PositiveNumber
appends "positive") appends exactly its rule tag at the end of the
registered field's rule list, creating the type and field entries when
absent, and leaves every other type's and field's rule list unchanged, so
rule lists grow monotonically. -/
theorem spec_C6 :
    (∀ (reg : Registry) (T f : String),
        lookupRules (Required reg T f) T f = lookupRules reg T f ++ ["required"]
        ∧ lookupRules (PositiveNumber reg T f) T f
            = lookupRules reg T f ++ ["positive"])
    ∧ (∀ (reg : Registry) (T f r T₂ f₂ : String), T₂ ≠ T ∨ f₂ ≠ f →
        lookupRules (register reg T f r) T₂ f₂ = lookupRules reg T₂ f₂)
    ∧ (∀ (reg : Registry) (T f r : String),
        (lookup? (register reg T f r) T).isSome = true
        ∧ (lookup? ((lookup? (register reg T f r) T).getD []) f).isSome = true) := by
  refine ⟨?_, ?_, ?_⟩
  · intro reg T f
    exact ⟨lookupRules_register_self reg T f "required",
           lookupRules_register_self reg T f "positive"⟩
  · intro reg T f r T₂ f₂ h
    exact lookupRules_register_frame reg T f r T₂ f₂ h
  · intro reg T f r
    constructor
    · simp only [register]
      rw [lookup_setKey_self]
      rfl
    · simp only [register]
      rw [lookup_setKey_self, Option.getD_some, lookup_setKey_self]
      rfl

theorem spec_C6_witness :
    lookupRules (register [("A", [("x", ["required"])])] "A" "x" "positive") "A" "y"
      = lookupRules [("A", [("x", ["required"])])] "A" "y" :=
  spec_C6.2.1 [("A", [("x", ["required"])])] "A" "x" "positive" "A" "y"
    (Or.inr (by decide))

/-- C7: the exception-aware transliteration of `validate` always returns
`Except.ok` of the boolean `validate` computes: no branch of the
evaluation raises. -/
theorem spec_C7 :
    ∀ (reg : Registry) (obj : Candidate),
      validateE reg obj = Except.ok (validate reg obj) :=
  fun reg obj => validateE_eq reg obj

/-- C8: the state-passing transliteration of `validate` returns the
registry and the candidate exactly as it received them: validation reads
but never writes either. -/
theorem spec_C8 :
    ∀ (reg : Registry) (obj : Candidate),
      validateS reg obj = (validate reg obj, reg, obj) :=
  fun reg obj => validateS_eq reg obj

/-- C9: when some field `f` of the candidate's type carries a "required"
or "positive" rule and the candidate's value at `f` is absent or
`undefined`, validation returns `false`. -/
theorem spec_C9 (reg : Registry) (obj : Candidate) (cfg : FieldRules)
    (f : String) (rules : List String) (r : String)
    (hcfg : lookup? reg obj.ctorName = some cfg)
    (hmem : (f, rules) ∈ cfg) (hr : r ∈ rules)
    (hreq : r = "required" ∨ r = "positive")
    (hundef : getProp obj f = JSValue.undef) :
    validate reg obj = false := by
  rw [validate_eq, hcfg]
  show allChecks cfg obj = false
  cases hac : allChecks cfg obj with
  | false => rfl
  | true =>
      exfalso
      have hac2 : cfg.all
          (fun pr => pr.2.all (fun s => ruleCheck (getProp obj pr.1) s)) = true := hac
      have h1 := List.all_eq_true.mp hac2 (f, rules) hmem
      have h2 := List.all_eq_true.mp h1 r hr
      rw [hundef] at h2
      rcases hreq with h | h <;> subst h
      · exact absurd h2 (by decide)
      · exact absurd h2 (by decide)

theorem spec_C9_witness :
    validate [("T", [("f", ["required"])])] ⟨"T", []⟩ = false :=
  spec_C9 [("T", [("f", ["required"])])] ⟨"T", []⟩ [("f", ["required"])]
    "f" ["required"] "required" (by decide) (by decide) (by decide)
    (Or.inl rfl) (by decide)

/-- C10: a registry entry all of whose fields carry empty rule lists
validates every candidate to `true`, indistinguishable from no entry. -/
theorem spec_C10 (reg : Registry) (obj : Candidate) (cfg : FieldRules)
    (hcfg : lookup? reg obj.ctorName = some cfg)
    (hempty : ∀ pr ∈ cfg, pr.2 = ([] : List String)) :
    validate reg obj = true := by
  rw [validate_eq, hcfg]
  show allChecks cfg obj = true
  refine List.all_eq_true.mpr ?_
  intro pr hpr
  rw [hempty pr hpr]
  rfl

theorem spec_C10_witness :
    validate [("T", [("f", ([] : List String)), ("g", ([] : List String))])]
        ⟨"T", [("f", JSValue.num (-5))]⟩ = true :=
  spec_C10 [("T", [("f", []), ("g", [])])] ⟨"T", [("f", JSValue.num (-5))]⟩
    [("f", []), ("g", [])] (by decide) (by decide)

end Decorators
